import Mathlib

/-!
Shallow embedding of the rusticsearch query-parsing and bulk-ingestion core:
the match query parser (`src/query/parser/match_query.rs`), the or query
parser (`src/query/parser/or_query.rs`) and the bulk API handler
(`src/api/bulk_api.rs`), together with the parts of the repository they call
that are not part of the visible sources (`parse_float`, `parse_operator`,
`FieldMapping::process_value_for_query`, the top-level query dispatcher and
the JSON line decoder), which are modelled from the specification.

JSON values follow `rustc_serialize::json::Json` (`I64`, `U64`, `F64`,
`String`, `Boolean`, `Array`, `Object`, `Null`).  `f64` payloads are modelled
as rationals.  A JSON object is modelled as its entry list in iteration
order; `rustc_serialize` objects are `BTreeMap`s, so the list of an actual
object is sorted by key and duplicate-free, and functions walk it exactly the
way the Rust code walks the map iterator.
-/

namespace Rusticsearch

/-- JSON values, after `rustc_serialize::json::Json`. -/
inductive Json where
  | i64 (n : Int)
  | u64 (n : Nat)
  | f64 (q : ℚ)
  | string (s : String)
  | boolean (b : Bool)
  | array (xs : List Json)
  | object (kvs : List (String × Json))
  | null

/-- Embeds `Json::as_object().is_some()`. -/
def Json.isObject : Json → Bool
  | .object _ => true
  | _ => false

/-- Embeds `Json::as_array().is_some()`. -/
def Json.isArray : Json → Bool
  | .array _ => true
  | _ => false

/-- True for the JSON values accepted by `parse_float` (`I64`, `U64`, `F64`). -/
def Json.isNumeric : Json → Bool
  | .i64 _ => true
  | .u64 _ => true
  | .f64 _ => true
  | _ => false

/-- Embeds `Json::as_object()`. -/
def Json.asObject : Json → Option (List (String × Json))
  | .object kvs => some kvs
  | _ => none

/-- Embeds `Json::as_string()`. -/
def Json.asString : Json → Option String
  | .string s => some s
  | _ => none

/-- First value bound to `key` in the entry list of an object (`BTreeMap::get`). -/
def assocFind (key : String) : List (String × Json) → Option Json
  | [] => none
  | (k, v) :: rest => if k = key then some v else assocFind key rest

/-- Term values stored in the index (`term::Term`); only the string variant is
exercised by the parsers modelled here. -/
inductive Term where
  | str (s : String)
deriving DecidableEq

/-- Embeds `query::TermMatcher`. -/
inductive TermMatcher where
  | exact
deriving DecidableEq

/-- The query tree (`query::Query`), restricted to the variants the parsers in
the sources construct: `MatchTerm`, `Bool` and `MatchNone`. -/
inductive Query where
  | matchTerm (field : String) (term : Term) (matcher : TermMatcher) (boost : ℚ)
  | bool (must mustNot should filter : List Query)
      (minimumShouldMatch : Nat) (boost : ℚ)
  | matchNone

/-- Embeds `query::parser::QueryParseError`.  The spec lists the closed variant set;
`invalidOperator` stands for the unnamed "unrecognized operator value is a
parse error" case of the spec. -/
inductive QueryParseError where
  | expectedObject
  | expectedArray
  | expectedObjectOrString
  | expectedSingleKey
  | expectedFloat
  | expectedKey (name : String)
  | unrecognisedKey (name : String)
  | unrecognisedQueryType (name : String)
  | invalidOperator
deriving DecidableEq

/-- Embeds `query::parser::utils::Operator`. -/
inductive Operator where
  | or
  | and
deriving DecidableEq

/-- A token produced by analysis (`search::token::Token`): a term plus its
ordinal position in the source text. -/
structure Token where
  term : Term
  position : Nat
deriving DecidableEq

/-- Modelled from the spec: `FieldMapping` is the per-field analysis
configuration (`mapping::FieldMapping`, not under the visible sources).  Its
contents (analyzer choice, field type) are not consulted by the modelled
default analysis, so it is an opaque marker structure here. -/
structure FieldMapping where

/-- Modelled from the spec: `FieldMapping::default()`: "A default mapping
(untyped, identity-ish analyzer) exists for use when no explicit mapping is
registered for a field name." -/
def FieldMapping.defaultMapping : FieldMapping := {}

/-- Splits a character list into maximal whitespace-free words, accumulating
the current word in reverse in `acc`. -/
def wsWords : List Char → List Char → List String
  | [], [] => []
  | [], acc => [String.mk acc.reverse]
  | c :: cs, acc =>
    if c.isWhitespace then
      match acc with
      | [] => wsWords cs []
      | _ => String.mk acc.reverse :: wsWords cs []
    else wsWords cs (c :: acc)

/-- Whitespace tokenization of query text: the testable property of the spec is
"one `MatchTerm` per whitespace-delimited token". -/
def splitWhitespace (s : String) : List String :=
  wsWords s.toList []

/-- Modelled from the spec: `FieldMapping::process_value_for_query`
(`mapping`, not under the visible sources): "Converts a JSON scalar or array
into text, runs it through the configured analyzer of the field, and returns the
resulting tokens. Returns `None` when the value cannot be coerced to the
declared type of the field (e.g., an object where a string was expected)."  Only
the string coercion is modelled (whitespace-delimited tokens, positions
enumerated from 0); every non-string value yields `none`. -/
def FieldMapping.processValueForQuery (_fm : FieldMapping) : Json → Option (List Token)
  | .string s => some ((splitWhitespace s).enum.map (fun p => ⟨.str p.2, p.1⟩))
  | _ => none

/-- The mapping table of the index being queried (`index::Index`, external to
the parser sources): field name to `FieldMapping`. -/
structure QIndex where
  fieldMappings : List (String × FieldMapping)

/-- Embeds `Index::get_field_mapping_by_name`. -/
def QIndex.getFieldMappingByName (idx : QIndex) (name : String) : Option FieldMapping :=
  match idx.fieldMappings.find? (fun p => p.1 = name) with
  | some p => some p.2
  | none => none

/-- Embeds `query::parser::QueryParseContext`: a borrowed reference to the index. -/
structure QueryParseContext where
  index : QIndex

/-- Modelled from the spec: `query::parser::utils::parse_float` (not under
the visible sources): "`boost` (optional float, coercible from JSON integer
or float; any other JSON type is `ExpectedFloat`)". -/
def parseFloat : Json → Except QueryParseError ℚ
  | .f64 q => .ok q
  | .i64 n => .ok (n : ℚ)
  | .u64 n => .ok (n : ℚ)
  | _ => .error .expectedFloat

/-- Modelled from the spec: `query::parser::utils::parse_operator` (not under
the visible sources): "`operator` (optional, one of `"or"`/`"and"`, default
`"or"`; unrecognized value is a parse error)". -/
def parseOperator : Json → Except QueryParseError Operator
  | .string "or" => .ok .or
  | .string "and" => .ok .and
  | _ => .error .invalidOperator

/-- The mutable configuration accumulated by the key loop of
`match_query::parse`: `query`, `boost`, `operator`, `has_query_key`. -/
structure MatchState where
  query : Json
  boost : ℚ
  op : Operator
  hasQueryKey : Bool

/-- The `for (key, value) in inner_object.iter()` loop of
`match_query::parse` (lines 47-61): walks the entries of the inner object in
iteration order, updating the state or failing on the first invalid entry. -/
def matchProcessKeys : List (String × Json) → MatchState → Except QueryParseError MatchState
  | [], st => .ok st
  | (key, value) :: rest, st =>
    if key = "query" then
      matchProcessKeys rest { st with query := value, hasQueryKey := true }
    else if key = "boost" then
      match parseFloat value with
      | .ok b => matchProcessKeys rest { st with boost := b }
      | .error e => .error e
    else if key = "operator" then
      match parseOperator value with
      | .ok op => matchProcessKeys rest { st with op := op }
      | .error e => .error e
    else
      .error (.unrecognisedKey key)

/-- The parsed configuration of a match query: the `query` value, the boost
and the operator. -/
structure MatchConfig where
  query : Json
  boost : ℚ
  op : Operator

/-- The configuration block of `match_query::parse` (lines 38-68): a string
value is the query shorthand; an object value is walked by the key loop and
must contain a `query` key; anything else is `ExpectedObjectOrString`.
Defaults: boost `1.0`, operator `Or`. -/
def matchGetConfig : Json → Except QueryParseError MatchConfig
  | .string s => .ok ⟨.string s, 1, .or⟩
  | .object inner =>
    match matchProcessKeys inner ⟨.null, 1, .or, false⟩ with
    | .ok st =>
      if st.hasQueryKey then .ok ⟨st.query, st.boost, st.op⟩
      else .error (.expectedKey "query")
    | .error e => .error e
  | _ => .error .expectedObjectOrString

/-- The tokenisation block of `match_query::parse` (lines 71-81): use the
mapping of the field when registered, else fall back to the default mapping. -/
def matchResolveTokens (ctx : QueryParseContext) (fieldName : String) (query : Json) :
    Option (List Token) :=
  match ctx.index.getFieldMappingByName fieldName with
  | some fm => fm.processValueForQuery query
  | none => FieldMapping.defaultMapping.processValueForQuery query

/-- Embeds `match_query::parse` (`src/query/parser/match_query.rs`).  A single-key
object names the field; the value yields the configuration; the query value
is tokenised; each token becomes a `MatchTerm` leaf with boost `1.0`; the
leaves are combined into a `Bool` node according to the operator, carrying
the parsed boost. -/
def matchQueryParse (ctx : QueryParseContext) (json : Json) : Except QueryParseError Query :=
  match json with
  | .object obj =>
    match obj with
    | [(fieldName, fieldValue)] =>
      match matchGetConfig fieldValue with
      | .error e => .error e
      | .ok cfg =>
        match matchResolveTokens ctx fieldName cfg.query with
        | none => .ok .matchNone
        | some tokens =>
          let subQueries := tokens.map (fun t => Query.matchTerm fieldName t.term .exact 1)
          match cfg.op with
          | .or => .ok (.bool [] [] subQueries [] 1 cfg.boost)
          | .and => .ok (.bool subQueries [] [] [] 0 cfg.boost)
    | _ => .error .expectedSingleKey
  | _ => .error .expectedObject

mutual

/-- Modelled from the spec: the top-level query dispatcher
(`query::parser::parse`, not under the visible sources): "Top-level parse
expects a JSON object with exactly one key naming the query type; unknown
type names are a parse error", dispatching to the per-type parsers of the
sources (`match`, `or`). -/
def parseQuery (ctx : QueryParseContext) : Json → Except QueryParseError Query
  | .object [(k, v)] =>
    if k = "match" then matchQueryParse ctx v
    else if k = "or" then orQueryParse ctx v
    else .error (.unrecognisedQueryType k)
  | .object _ => .error .expectedSingleKey
  | _ => .error .expectedObject

/-- Embeds `or_query::parse` (`src/query/parser/or_query.rs`): the input must be an
array; each element is parsed by the top-level dispatcher; the children
become the `should` list of a `Bool` with `minimum_should_match` 1 and boost
`1.0`. -/
def orQueryParse (ctx : QueryParseContext) : Json → Except QueryParseError Query
  | .array xs =>
    match orParseList ctx xs with
    | .ok subQueries => .ok (.bool [] [] subQueries [] 1 1)
    | .error e => .error e
  | _ => .error .expectedArray

/-- The `for filter in filters.iter()` loop of `or_query::parse`: parse each
element in order, propagating the first error. -/
def orParseList (ctx : QueryParseContext) : List Json → Except QueryParseError (List Query)
  | [] => .ok []
  | x :: xs =>
    match parseQuery ctx x with
    | .error e => .error e
    | .ok q =>
      match orParseList ctx xs with
      | .error e => .error e
      | .ok qs => .ok (q :: qs)

end

/-! ## Bulk API handler (`src/api/bulk_api.rs`) -/

/-- One index of the registry, as the bulk handler uses it: a set of mapping
names (the handler looks a mapping up by document type and never reads the
mapping itself) and the document table.  `Document::from_json` (external to
the sources) is modelled as the identity, so a stored document is its JSON. -/
structure SIndex where
  mappings : List String
  docs : List (String × Json)

/-- The locked index registry (`glob.indices`): index name to index. -/
def Registry := List (String × SIndex)

/-- Embeds `indices.get_mut(name)` viewed as a lookup. -/
def registryFind (reg : Registry) (name : String) : Option SIndex :=
  match (reg : List (String × SIndex)).find? (fun p => p.1 = name) with
  | some p => some p.2
  | none => none

/-- Map-style insertion into a document table (`index.docs.insert`): replaces
the binding when the key is present, appends otherwise. -/
def docsInsert (docs : List (String × Json)) (docId : String) (doc : Json) :
    List (String × Json) :=
  match docs with
  | [] => [(docId, doc)]
  | (k, v) :: rest =>
    if k = docId then (docId, doc) :: rest else (k, v) :: docsInsert rest docId doc

/-- In-place mutation of the registry entry `idxName` performed through
`indices.get_mut(doc_index)` followed by `index.docs.insert(doc_id, doc)`. -/
def registryInsertDoc (reg : Registry) (idxName docId : String) (doc : Json) : Registry :=
  (reg : List (String × SIndex)).map
    (fun p => if p.1 = idxName then (p.1, ⟨p.2.mappings, docsInsert p.2.docs docId doc⟩) else p)

/-- Decomposition of the action line (lines 41-43 of the handler):
`as_object().unwrap()`, `keys().nth(0).unwrap()` (first key in iteration
order), `get(action_name).unwrap().as_object().unwrap()`.  `none` is a
panic of the Rust code. -/
def getActionParts (j : Json) : Option (String × List (String × Json)) :=
  match j with
  | .object ((k, v) :: _) =>
    match v with
    | .object params => some (k, params)
    | _ => none
  | _ => none

/-- The `_id`/`_type`/`_index` extraction (lines 45-47):
`get(..).unwrap().as_string().unwrap()` for each.  `none` is a panic. -/
def getDocFields (params : List (String × Json)) : Option (String × String × String) :=
  match assocFind "_id" params with
  | none => none
  | some idJson =>
    match idJson.asString with
    | none => none
    | some docId =>
      match assocFind "_type" params with
      | none => none
      | some tyJson =>
        match tyJson.asString with
        | none => none
        | some docType =>
          match assocFind "_index" params with
          | none => none
          | some ixJson =>
            match ixJson.asString with
            | none => none
            | some docIndex => some (docId, docType, docIndex)

/-- The ways the bulk loop returns early: a malformed JSON line
(`parse_json!` failure), a panicking `unwrap`, or the structured not-found
responses for a missing index or mapping. -/
inductive BulkAbort where
  | jsonError
  | panicked
  | indexNotFound
  | mappingNotFound
deriving DecidableEq

/-- Result of running the bulk loop: normal completion (end of input or an
empty action line) with the final registry and items, or an early return,
carrying the registry as already mutated by the preceding iterations. -/
inductive BulkStep where
  | finished (st : Registry) (items : List (String × Json))
  | aborted (why : BulkAbort) (st : Registry)

/-- The `loop` of `view_post_bulk` (lines 29-87) over the payload lines.
An action line is JSON-decoded (`fromStr` models `parse_json!`, whose failure
aborts the request); its single-key object names the action and carries the
`_id`/`_type`/`_index` parameters; an `index` action consumes and decodes the
next line as the document, requires the index and mapping to exist, inserts
the document and pushes an item keyed by the literal `"create"`; any other
action name is skipped with a warning. -/
def bulkSteps (fromStr : String → Option Json) :
    Registry → List (String × Json) → List String → BulkStep
  | st, items, [] => .finished st items
  | st, items, line :: rest =>
    if line = "" then .finished st items
    else
      match fromStr line with
      | none => .aborted .jsonError st
      | some actionJson =>
        match getActionParts actionJson with
        | none => .aborted .panicked st
        | some (actionName, params) =>
          match getDocFields params with
          | none => .aborted .panicked st
          | some (docId, docType, docIndex) =>
            if actionName = "index" then
              match rest with
              | [] => .aborted .panicked st
              | docLine :: rest2 =>
                match fromStr docLine with
                | none => .aborted .jsonError st
                | some docJson =>
                  match registryFind st docIndex with
                  | none => .aborted .indexNotFound st
                  | some idx =>
                    if docType ∈ idx.mappings then
                      bulkSteps fromStr (registryInsertDoc st docIndex docId docJson)
                        (items ++ [("create", Json.object params)]) rest2
                    else .aborted .mappingNotFound st
            else
              bulkSteps fromStr st items rest

/-- The possible responses of the handler: the success body
`\x7b"took": <item count>, "items": [...]\x7d`, the structured not-found
responses, and the abort modes for malformed JSON and panics. -/
inductive BulkResponse where
  | ok (took : Nat) (items : List (String × Json))
  | indexNotFound
  | mappingNotFound
  | jsonError
  | panicked

/-- Embeds `view_post_bulk` over the line list of the payload: run the loop, then either
build the success response (took = number of items) or surface the early
return; the registry reflects all mutations made before returning. -/
def viewPostBulk (fromStr : String → Option Json) (st : Registry) (lines : List String) :
    BulkResponse × Registry :=
  match bulkSteps fromStr st [] lines with
  | .finished st2 items => (.ok items.length items, st2)
  | .aborted .jsonError st2 => (.jsonError, st2)
  | .aborted .panicked st2 => (.panicked, st2)
  | .aborted .indexNotFound st2 => (.indexNotFound, st2)
  | .aborted .mappingNotFound st2 => (.mappingNotFound, st2)

/-- Embeds the Rust split of the payload on the newline character: the
payload string as its line list. -/
def payloadLines (payload : String) : List String :=
  payload.splitOn "\n"

/-! ## Derived predicates and concrete fixtures -/

/-- Returns `true` exactly on `Except.ok`. -/
def exceptOk {α : Type} : Except QueryParseError α → Bool
  | .ok _ => true
  | .error _ => false

/-- An inner-object entry that the key loop of `match_query::parse` accepts:
the `query` key, a `boost` key whose value `parse_float` accepts, or an
`operator` key whose value `parse_operator` accepts. -/
def entryValid (e : String × Json) : Bool :=
  e.1 = "query" || (e.1 = "boost" && exceptOk (parseFloat e.2)) ||
    (e.1 = "operator" && exceptOk (parseOperator e.2))

/-- The satisfiability invariant claimed of `Bool.minimum_should_match`:
zero when the `should` list is empty, and never more than the number of
`should` clauses.  Non-`Bool` nodes satisfy it trivially. -/
def msmInvariant : Query → Prop
  | .bool _ _ should _ msm _ => (should = [] → msm = 0) ∧ msm ≤ should.length
  | _ => True

/-- A parse context over an index with no registered field mappings. -/
def ctx0 : QueryParseContext := ⟨⟨[]⟩⟩

/-- A registry holding one index `idx` with one mapping `typ` and no
documents. -/
def reg0 : Registry := [("idx", ⟨["typ"], []⟩)]

/-- Bulk action line indexing document `1` into `idx`/`typ` (object keys in
`BTreeMap` iteration order). -/
def actionLine1 : String :=
  "\x7b\"index\": \x7b\"_id\": \"1\", \"_index\": \"idx\", \"_type\": \"typ\"\x7d\x7d"

/-- The action parameters of `actionLine1`. -/
def params1 : List (String × Json) :=
  [("_id", .string "1"), ("_index", .string "idx"), ("_type", .string "typ")]

/-- The JSON value of `actionLine1`. -/
def actionJson1 : Json := .object [("index", .object params1)]

/-- Document line for the first action. -/
def docLine1 : String := "\x7b\"title\": \"hello\"\x7d"

/-- The JSON value of `docLine1`. -/
def docJson1 : Json := .object [("title", .string "hello")]

/-- Bulk action line indexing document `2` into the nonexistent index
`missing`. -/
def actionLine2 : String :=
  "\x7b\"index\": \x7b\"_id\": \"2\", \"_index\": \"missing\", \"_type\": \"typ\"\x7d\x7d"

/-- The action parameters of `actionLine2`. -/
def params2 : List (String × Json) :=
  [("_id", .string "2"), ("_index", .string "missing"), ("_type", .string "typ")]

/-- The JSON value of `actionLine2`. -/
def actionJson2 : Json := .object [("index", .object params2)]

/-- Document line for the second action. -/
def docLine2 : String := "\x7b\"title\": \"world\"\x7d"

/-- The JSON value of `docLine2`. -/
def docJson2 : Json := .object [("title", .string "world")]

/-- Bulk action line with the unrecognised action name `frobnicate` and
well-formed parameters. -/
def actionLineU : String :=
  "\x7b\"frobnicate\": \x7b\"_id\": \"3\", \"_index\": \"idx\", \"_type\": \"typ\"\x7d\x7d"

/-- The action parameters of `actionLineU`. -/
def paramsU : List (String × Json) :=
  [("_id", .string "3"), ("_index", .string "idx"), ("_type", .string "typ")]

/-- The JSON value of `actionLineU`. -/
def actionJsonU : Json := .object [("frobnicate", .object paramsU)]

/-- Modelled from the spec: `Json::from_str` as invoked by the `parse_json!`
macro (not under the visible sources; the spec: "Malformed JSON on any line
is currently treated as an unrecoverable failure of the whole request"),
restricted to the concrete payload lines used in this development; every
other line, in particular the empty line, is malformed JSON. -/
def testFromStr (line : String) : Option Json :=
  if line = actionLine1 then some actionJson1
  else if line = docLine1 then some docJson1
  else if line = actionLine2 then some actionJson2
  else if line = docLine2 then some docJson2
  else if line = actionLineU then some actionJsonU
  else none

example : matchQueryParse ctx0 (.object [("foo", .string "bar baz")]) =
    .ok (.bool [] []
      [.matchTerm "foo" (.str "bar") .exact 1, .matchTerm "foo" (.str "baz") .exact 1]
      [] 1 1) := rfl

example : matchQueryParse ctx0 (.object [("foo", .object [("query", .string "bar"), ("operator", .string "and")])]) =
    .ok (.bool [.matchTerm "foo" (.str "bar") .exact 1] [] [] [] 0 1) := rfl

example : matchQueryParse ctx0 (.object [("foo", .object [("zzz", .i64 1)])]) =
    .error (.unrecognisedKey "zzz") := rfl

example : orQueryParse ctx0 (.array []) = .ok (.bool [] [] [] [] 1 1) := rfl

example : parseQuery ctx0 (.object [("match", .object [("foo", .string "bar")])]) =
    .ok (.bool [] [] [.matchTerm "foo" (.str "bar") .exact 1] [] 1 1) := rfl

example :
    viewPostBulk testFromStr reg0 [actionLine1, docLine1, actionLine2, docLine2] =
      (.indexNotFound, [("idx", ⟨["typ"], [("1", docJson1)]⟩)]) := rfl

example :
    viewPostBulk testFromStr reg0 [actionLine1, docLine1, ""] =
      (.ok 1 [("create",
        .object [("_id", .string "1"), ("_index", .string "idx"), ("_type", .string "typ")])],
       [("idx", ⟨["typ"], [("1", docJson1)]⟩)]) := rfl

example : viewPostBulk testFromStr reg0 ("" :: ["junk"]) = (.ok 0 [], reg0) := rfl

/-! ## Helper lemmas: match query parser -/

/-- Returns `true` on JSON strings. -/
def Json.isString : Json → Bool
  | .string _ => true
  | _ => false

/-- Unfolds `matchQueryParse` on a single-key object by one level. -/
theorem matchQueryParse_single (ctx : QueryParseContext) (f : String) (v : Json) :
    matchQueryParse ctx (.object [(f, v)]) =
      match matchGetConfig v with
      | .error e => .error e
      | .ok cfg =>
        match matchResolveTokens ctx f cfg.query with
        | none => .ok .matchNone
        | some tokens =>
          match cfg.op with
          | .or => .ok (.bool [] []
              (tokens.map (fun t => Query.matchTerm f t.term .exact 1)) [] 1 cfg.boost)
          | .and => .ok (.bool
              (tokens.map (fun t => Query.matchTerm f t.term .exact 1)) [] [] [] 0 cfg.boost) :=
  rfl

/-- The modelled `parse_float` rejects every non-numeric JSON value with
`ExpectedFloat`. -/
theorem parseFloat_not_numeric (v : Json) (h : v.isNumeric = false) :
    parseFloat v = .error .expectedFloat := by
  cases v <;> simp_all [Json.isNumeric, parseFloat]

/-- The only error `parse_float` produces is `ExpectedFloat`. -/
theorem parseFloat_error_shape (v : Json) (e : QueryParseError)
    (h : parseFloat v = .error e) : e = .expectedFloat := by
  cases v <;> simp_all [parseFloat]

/-- The only error `parse_operator` produces is the invalid-operator error. -/
theorem parseOperator_error_shape (v : Json) (e : QueryParseError)
    (h : parseOperator v = .error e) : e = .invalidOperator := by
  cases v with
  | string s =>
    by_cases h1 : s = "or"
    · subst h1; simp [parseOperator] at h
    · by_cases h2 : s = "and"
      · subst h2; simp [parseOperator] at h
      · rw [show parseOperator (.string s) = .error .invalidOperator by
          simp [parseOperator]; split <;> simp_all] at h
        exact (Except.error.injEq _ _).mp h |>.symm
  | _ => simp_all [parseOperator]

/-- A rejected `operator` value is rejected with the invalid-operator error. -/
theorem parseOperator_not_ok (v : Json) (h : exceptOk (parseOperator v) = false) :
    parseOperator v = .error .invalidOperator := by
  cases hv : parseOperator v with
  | ok op => rw [hv] at h; simp [exceptOk] at h
  | error e => rw [parseOperator_error_shape v e hv]

/-- A rejected `boost` value is rejected with `ExpectedFloat`. -/
theorem parseFloat_not_ok (v : Json) (h : exceptOk (parseFloat v) = false) :
    parseFloat v = .error .expectedFloat := by
  cases hv : parseFloat v with
  | ok b => rw [hv] at h; simp [exceptOk] at h
  | error e => rw [parseFloat_error_shape v e hv]

/-- Propositional reading of `entryValid`. -/
theorem entryValid_iff (k : String) (v : Json) :
    entryValid (k, v) = true ↔
      k = "query" ∨ (k = "boost" ∧ exceptOk (parseFloat v) = true) ∨
        (k = "operator" ∧ exceptOk (parseOperator v) = true) := by
  simp [entryValid]
  tauto

/-- Walking a prefix of valid entries only updates the state: the loop then
continues on the remaining entries from some state whose `has_query_key`
flag records whether the prefix contained the `query` key. -/
theorem matchProcessKeys_prefix_valid :
    ∀ (pre : List (String × Json)) (st : MatchState) (rest : List (String × Json)),
      (∀ e ∈ pre, entryValid e = true) →
      ∃ st2 : MatchState,
        matchProcessKeys (pre ++ rest) st = matchProcessKeys rest st2 ∧
        st2.hasQueryKey = (st.hasQueryKey || pre.any (fun e => e.1 = "query")) := by
  intro pre
  induction pre with
  | nil => intro st rest _; exact ⟨st, rfl, by simp⟩
  | cons e pre2 ih =>
    intro st rest hvalid
    obtain ⟨k, v⟩ := e
    have he : entryValid (k, v) = true := hvalid _ (List.mem_cons_self _ _)
    have hrest : ∀ e ∈ pre2, entryValid e = true :=
      fun e hmem => hvalid e (List.mem_cons_of_mem _ hmem)
    rcases (entryValid_iff k v).mp he with rfl | ⟨rfl, hok⟩ | ⟨rfl, hok⟩
    · obtain ⟨st2, hst2, hflag⟩ :=
        ih { st with query := v, hasQueryKey := true } rest hrest
      refine ⟨st2, ?_, ?_⟩
      · simpa [matchProcessKeys] using hst2
      · simp [hflag]
    · cases hf : parseFloat v with
      | error e2 => rw [hf] at hok; simp [exceptOk] at hok
      | ok b =>
        obtain ⟨st2, hst2, hflag⟩ := ih { st with boost := b } rest hrest
        refine ⟨st2, ?_, ?_⟩
        · simpa [matchProcessKeys, hf] using hst2
        · simp [hflag]
    · cases hop : parseOperator v with
      | error e2 => rw [hop] at hok; simp [exceptOk] at hok
      | ok op =>
        obtain ⟨st2, hst2, hflag⟩ := ih { st with op := op } rest hrest
        refine ⟨st2, ?_, ?_⟩
        · simpa [matchProcessKeys, hop] using hst2
        · simp [hflag]

/-- If the key loop completes, every entry it walked was valid. -/
theorem matchProcessKeys_ok_valid :
    ∀ (l : List (String × Json)) (st st2 : MatchState),
      matchProcessKeys l st = .ok st2 → ∀ e ∈ l, entryValid e = true := by
  intro l
  induction l with
  | nil => intro st st2 _ e hmem; cases hmem
  | cons hd tl ih =>
    intro st st2 hok e hmem
    obtain ⟨k, v⟩ := hd
    rw [matchProcessKeys] at hok
    by_cases hq : k = "query"
    · rw [if_pos hq] at hok
      rcases List.mem_cons.mp hmem with rfl | hmem
      · simp [entryValid, hq]
      · exact ih _ _ hok e hmem
    · rw [if_neg hq] at hok
      by_cases hb : k = "boost"
      · rw [if_pos hb] at hok
        cases hf : parseFloat v with
        | error e2 => rw [hf] at hok; exact absurd hok (by simp)
        | ok b =>
          rw [hf] at hok
          rcases List.mem_cons.mp hmem with rfl | hmem
          · simp [entryValid_iff, hb, exceptOk, hf]
          · exact ih _ _ hok e hmem
      · rw [if_neg hb] at hok
        by_cases ho : k = "operator"
        · rw [if_pos ho] at hok
          cases hop : parseOperator v with
          | error e2 => rw [hop] at hok; exact absurd hok (by simp)
          | ok op =>
            rw [hop] at hok
            rcases List.mem_cons.mp hmem with rfl | hmem
            · simp [entryValid_iff, ho, exceptOk, hop]
            · exact ih _ _ hok e hmem
        · rw [if_neg ho] at hok
          exact absurd hok (by simp)

/-- The key loop never fails with `ExpectedKey`: its errors are
`ExpectedFloat`, the invalid-operator error, or `UnrecognisedKey`. -/
theorem matchProcessKeys_error_shape :
    ∀ (l : List (String × Json)) (st : MatchState) (e : QueryParseError),
      matchProcessKeys l st = .error e → ∀ s : String, e ≠ .expectedKey s := by
  intro l
  induction l with
  | nil => intro st e h s; exact absurd h (by simp [matchProcessKeys])
  | cons hd tl ih =>
    intro st e h s
    obtain ⟨k, v⟩ := hd
    rw [matchProcessKeys] at h
    by_cases hq : k = "query"
    · rw [if_pos hq] at h
      exact ih _ _ h s
    · rw [if_neg hq] at h
      by_cases hb : k = "boost"
      · rw [if_pos hb] at h
        cases hf : parseFloat v with
        | error e2 =>
          rw [hf] at h
          simp only [Except.error.injEq] at h
          subst h
          rw [parseFloat_error_shape v e2 hf]
          simp
        | ok b =>
          rw [hf] at h
          exact ih _ _ h s
      · rw [if_neg hb] at h
        by_cases ho : k = "operator"
        · rw [if_pos ho] at h
          cases hop : parseOperator v with
          | error e2 =>
            rw [hop] at h
            simp only [Except.error.injEq] at h
            subst h
            rw [parseOperator_error_shape v e2 hop]
            simp
          | ok op =>
            rw [hop] at h
            exact ih _ _ h s
        · rw [if_neg ho] at h
          simp only [Except.error.injEq] at h
          subst h
          simp

/-! ## Claim theorems: match query parser -/

/-- C1: for every match query input whose configuration parses and whose
query value tokenises to `tokens`, the result combines one `MatchTerm` leaf
per token (exact matcher, boost 1.0, the single key as field): under `or`
they form the `should` list with `minimum_should_match` 1, under `and` the
`must` list with `minimum_should_match` 0, and the parsed boost sits on the
combining `Bool` node. -/
theorem matchQueryParse_combines_tokens (ctx : QueryParseContext) (f : String)
    (v : Json) (cfg : MatchConfig) (tokens : List Token)
    (hcfg : matchGetConfig v = .ok cfg)
    (htoks : matchResolveTokens ctx f cfg.query = some tokens) :
    matchQueryParse ctx (.object [(f, v)]) =
      .ok (match cfg.op with
        | .or => .bool [] []
            (tokens.map (fun t => Query.matchTerm f t.term .exact 1)) [] 1 cfg.boost
        | .and => .bool
            (tokens.map (fun t => Query.matchTerm f t.term .exact 1)) [] [] [] 0 cfg.boost) := by
  obtain ⟨q, b, op⟩ := cfg
  simp only [matchQueryParse_single, hcfg]
  simp only at htoks
  simp only [htoks]
  cases op <;> rfl

/-- Witness for C1: the concrete query
`\x7b"foo": \x7b"operator": "and", "query": "bar baz"\x7d\x7d`. -/
theorem matchQueryParse_combines_tokens_witness :
    matchGetConfig (.object [("operator", .string "and"), ("query", .string "bar baz")]) =
      .ok ⟨.string "bar baz", 1, .and⟩ ∧
    matchResolveTokens ctx0 "foo" (.string "bar baz") =
      some [⟨.str "bar", 0⟩, ⟨.str "baz", 1⟩] ∧
    matchQueryParse ctx0
        (.object [("foo", .object [("operator", .string "and"), ("query", .string "bar baz")])]) =
      .ok (.bool [.matchTerm "foo" (.str "bar") .exact 1,
                  .matchTerm "foo" (.str "baz") .exact 1] [] [] [] 0 1) :=
  ⟨rfl, rfl,
    matchQueryParse_combines_tokens ctx0 "foo"
      (.object [("operator", .string "and"), ("query", .string "bar baz")])
      ⟨.string "bar baz", 1, .and⟩ [⟨.str "bar", 0⟩, ⟨.str "baz", 1⟩] rfl rfl⟩

/-- C2 counterexample: the inner object `\x7b"zzz": 1\x7d` lacks a `query`
key, yet the parser reports `UnrecognisedKey("zzz")`, not
`ExpectedKey("query")` as the unconditional reading of the claim asserts. -/
theorem matchQueryParse_missing_query_counterexample :
    matchQueryParse ctx0 (.object [("foo", .object [("zzz", .i64 1)])]) =
      .error (.unrecognisedKey "zzz") ∧
    QueryParseError.unrecognisedKey "zzz" ≠ QueryParseError.expectedKey "query" :=
  ⟨rfl, by decide⟩

/-- C2 (amended): the match parser is total over JSON shapes with the listed
error variants, where the `ExpectedKey("query")` case additionally requires
every present inner entry to validate, and the `UnrecognisedKey` case fires
on the first invalid entry in iteration order (all earlier entries valid). -/
theorem matchQueryParse_error_taxonomy :
    (∀ (ctx : QueryParseContext) (j : Json), j.isObject = false →
      matchQueryParse ctx j = .error .expectedObject) ∧
    (∀ (ctx : QueryParseContext) (kvs : List (String × Json)), kvs.length ≠ 1 →
      matchQueryParse ctx (.object kvs) = .error .expectedSingleKey) ∧
    (∀ (ctx : QueryParseContext) (f : String) (v : Json),
      v.isString = false → v.isObject = false →
      matchQueryParse ctx (.object [(f, v)]) = .error .expectedObjectOrString) ∧
    (∀ (ctx : QueryParseContext) (f : String) (inner : List (String × Json)),
      (∀ e ∈ inner, entryValid e = true) → (∀ e ∈ inner, e.1 ≠ "query") →
      matchQueryParse ctx (.object [(f, .object inner)]) = .error (.expectedKey "query")) ∧
    (∀ (ctx : QueryParseContext) (f k : String) (v : Json)
      (pre post : List (String × Json)),
      (∀ e ∈ pre, entryValid e = true) → k ≠ "query" → k ≠ "boost" → k ≠ "operator" →
      matchQueryParse ctx (.object [(f, .object (pre ++ (k, v) :: post))]) =
        .error (.unrecognisedKey k)) := by
  refine ⟨?_, ?_, ?_, ?_, ?_⟩
  · intro ctx j h
    cases j <;> first | rfl | simp_all [Json.isObject]
  · intro ctx kvs h
    cases kvs with
    | nil => rfl
    | cons a tl =>
      obtain ⟨f, v⟩ := a
      cases tl with
      | nil => simp at h
      | cons b tl2 => rfl
  · intro ctx f v h1 h2
    cases v <;> first | rfl | simp_all [Json.isString, Json.isObject]
  · intro ctx f inner hval hnq
    obtain ⟨st2, hst2, hflag⟩ :=
      matchProcessKeys_prefix_valid inner ⟨.null, 1, .or, false⟩ [] hval
    rw [List.append_nil] at hst2
    have hany : inner.any (fun e => e.1 = "query") = false := by
      rw [List.any_eq_false]
      intro e hmem
      simp only [decide_eq_true_eq]
      exact hnq e hmem
    have hq : st2.hasQueryKey = false := by rw [hflag, hany]; simp
    have hcfg : matchGetConfig (.object inner) = .error (.expectedKey "query") := by
      simp only [matchGetConfig]
      rw [hst2]
      simp only [matchProcessKeys]
      rw [hq]
      simp
    rw [matchQueryParse_single, hcfg]
  · intro ctx f k v pre post hval hk1 hk2 hk3
    obtain ⟨st2, hst2, -⟩ :=
      matchProcessKeys_prefix_valid pre ⟨.null, 1, .or, false⟩ ((k, v) :: post) hval
    have hhead : matchProcessKeys ((k, v) :: post) st2 = .error (.unrecognisedKey k) := by
      rw [matchProcessKeys, if_neg hk1, if_neg hk2, if_neg hk3]
    have hcfg : matchGetConfig (.object (pre ++ (k, v) :: post)) =
        .error (.unrecognisedKey k) := by
      simp only [matchGetConfig]
      rw [hst2, hhead]
    rw [matchQueryParse_single, hcfg]

/-- Witness for C2 (amended): one concrete input per error variant. -/
theorem matchQueryParse_error_taxonomy_witness :
    matchQueryParse ctx0 (.i64 7) = .error .expectedObject ∧
    matchQueryParse ctx0 (.object []) = .error .expectedSingleKey ∧
    matchQueryParse ctx0 (.object [("foo", .i64 7)]) = .error .expectedObjectOrString ∧
    matchQueryParse ctx0 (.object [("foo", .object [("boost", .i64 2)])]) =
      .error (.expectedKey "query") ∧
    matchQueryParse ctx0 (.object [("foo", .object [("boost", .i64 2), ("zzz", .null)])]) =
      .error (.unrecognisedKey "zzz") := by
  refine ⟨?_, ?_, ?_, ?_, ?_⟩
  · exact matchQueryParse_error_taxonomy.1 ctx0 (.i64 7) rfl
  · exact matchQueryParse_error_taxonomy.2.1 ctx0 [] (by decide)
  · exact matchQueryParse_error_taxonomy.2.2.1 ctx0 "foo" (.i64 7) rfl rfl
  · exact matchQueryParse_error_taxonomy.2.2.2.1 ctx0 "foo" [("boost", .i64 2)]
      (by decide) (by decide)
  · exact matchQueryParse_error_taxonomy.2.2.2.2 ctx0 "foo" "zzz" .null
      [("boost", .i64 2)] [] (by decide) (by decide) (by decide) (by decide)

/-- C9: per-key validation errors take precedence over the missing-`query`
check: with all earlier entries valid, a non-numeric `boost` yields
`ExpectedFloat`, an invalid `operator` yields the operator parse error, an
unrecognised key yields `UnrecognisedKey`, each even though `query` is
absent; and `ExpectedKey("query")` is returned only when every present
entry validates. -/
theorem matchQueryParse_key_validation_precedence :
    (∀ (ctx : QueryParseContext) (f : String) (v : Json)
      (pre post : List (String × Json)),
      (∀ e ∈ pre, entryValid e = true) →
      (∀ e ∈ pre ++ ("boost", v) :: post, e.1 ≠ "query") →
      v.isNumeric = false →
      matchQueryParse ctx (.object [(f, .object (pre ++ ("boost", v) :: post))]) =
        .error .expectedFloat) ∧
    (∀ (ctx : QueryParseContext) (f : String) (v : Json)
      (pre post : List (String × Json)),
      (∀ e ∈ pre, entryValid e = true) →
      (∀ e ∈ pre ++ ("operator", v) :: post, e.1 ≠ "query") →
      exceptOk (parseOperator v) = false →
      matchQueryParse ctx (.object [(f, .object (pre ++ ("operator", v) :: post))]) =
        .error .invalidOperator) ∧
    (∀ (ctx : QueryParseContext) (f k : String) (v : Json)
      (pre post : List (String × Json)),
      (∀ e ∈ pre, entryValid e = true) →
      (∀ e ∈ pre ++ (k, v) :: post, e.1 ≠ "query") →
      k ≠ "boost" → k ≠ "operator" →
      matchQueryParse ctx (.object [(f, .object (pre ++ (k, v) :: post))]) =
        .error (.unrecognisedKey k)) ∧
    (∀ (ctx : QueryParseContext) (f : String) (inner : List (String × Json)),
      matchQueryParse ctx (.object [(f, .object inner)]) = .error (.expectedKey "query") →
      ∀ e ∈ inner, entryValid e = true) := by
  refine ⟨?_, ?_, ?_, ?_⟩
  · intro ctx f v pre post hval hnq hnum
    obtain ⟨st2, hst2, -⟩ :=
      matchProcessKeys_prefix_valid pre ⟨.null, 1, .or, false⟩ (("boost", v) :: post) hval
    have hhead : matchProcessKeys (("boost", v) :: post) st2 = .error .expectedFloat := by
      rw [matchProcessKeys, if_neg (by decide), if_pos rfl, parseFloat_not_numeric v hnum]
    have hcfg : matchGetConfig (.object (pre ++ ("boost", v) :: post)) =
        .error .expectedFloat := by
      simp only [matchGetConfig]
      rw [hst2, hhead]
    rw [matchQueryParse_single, hcfg]
  · intro ctx f v pre post hval hnq hop
    obtain ⟨st2, hst2, -⟩ :=
      matchProcessKeys_prefix_valid pre ⟨.null, 1, .or, false⟩ (("operator", v) :: post) hval
    have hhead : matchProcessKeys (("operator", v) :: post) st2 =
        .error .invalidOperator := by
      rw [matchProcessKeys, if_neg (by decide), if_neg (by decide), if_pos rfl,
        parseOperator_not_ok v hop]
    have hcfg : matchGetConfig (.object (pre ++ ("operator", v) :: post)) =
        .error .invalidOperator := by
      simp only [matchGetConfig]
      rw [hst2, hhead]
    rw [matchQueryParse_single, hcfg]
  · intro ctx f k v pre post hval hnq hk2 hk3
    have hk1 : k ≠ "query" :=
      hnq (k, v) (List.mem_append_right _ (List.mem_cons_self _ _))
    obtain ⟨st2, hst2, -⟩ :=
      matchProcessKeys_prefix_valid pre ⟨.null, 1, .or, false⟩ ((k, v) :: post) hval
    have hhead : matchProcessKeys ((k, v) :: post) st2 = .error (.unrecognisedKey k) := by
      rw [matchProcessKeys, if_neg hk1, if_neg hk2, if_neg hk3]
    have hcfg : matchGetConfig (.object (pre ++ (k, v) :: post)) =
        .error (.unrecognisedKey k) := by
      simp only [matchGetConfig]
      rw [hst2, hhead]
    rw [matchQueryParse_single, hcfg]
  · intro ctx f inner h
    rw [matchQueryParse_single] at h
    cases hcfg : matchGetConfig (.object inner) with
    | ok cfg =>
      simp only [hcfg] at h
      cases hres : matchResolveTokens ctx f cfg.query with
      | none => rw [hres] at h; simp at h
      | some tokens =>
        rw [hres] at h
        cases hco : cfg.op <;> rw [hco] at h <;> simp at h
    | error e =>
      rw [hcfg] at h
      simp only [Except.error.injEq] at h
      subst h
      simp only [matchGetConfig] at hcfg
      cases hpk : matchProcessKeys inner ⟨.null, 1, .or, false⟩ with
      | ok st =>
        exact matchProcessKeys_ok_valid inner _ st hpk
      | error e2 =>
        simp only [hpk, Except.error.injEq] at hcfg
        exact absurd hcfg (matchProcessKeys_error_shape inner _ e2 hpk "query")

/-- Witness for C9: concrete inner objects, each lacking `query`. -/
theorem matchQueryParse_key_validation_precedence_witness :
    matchQueryParse ctx0 (.object [("foo", .object [("boost", .string "x")])]) =
      .error .expectedFloat ∧
    matchQueryParse ctx0 (.object [("foo", .object [("operator", .string "xor")])]) =
      .error .invalidOperator ∧
    matchQueryParse ctx0 (.object [("foo", .object [("frobnicate", .null)])]) =
      .error (.unrecognisedKey "frobnicate") ∧
    (matchQueryParse ctx0 (.object [("foo", .object [("operator", .string "and")])]) =
        .error (.expectedKey "query") →
      ∀ e ∈ [(("operator" : String), Json.string "and")], entryValid e = true) := by
  refine ⟨?_, ?_, ?_, ?_⟩
  · exact matchQueryParse_key_validation_precedence.1 ctx0 "foo" (.string "x") [] []
      (by decide) (by decide) rfl
  · exact matchQueryParse_key_validation_precedence.2.1 ctx0 "foo" (.string "xor") [] []
      (by decide) (by decide) rfl
  · exact matchQueryParse_key_validation_precedence.2.2.1 ctx0 "foo" "frobnicate" .null [] []
      (by decide) (by decide) (by decide) (by decide)
  · exact matchQueryParse_key_validation_precedence.2.2.2 ctx0 "foo"
      [("operator", .string "and")]

/-- C3: a JSON integer boost and the float of the same numeric value parse
to the same result; a non-numeric boost fails with `ExpectedFloat`; an
absent boost defaults to `1.0` on the combining `Bool` node. -/
theorem matchQueryParse_boost_semantics :
    (∀ (ctx : QueryParseContext) (f s : String) (n : Int),
      matchQueryParse ctx (.object [(f, .object [("boost", .i64 n), ("query", .string s)])]) =
        matchQueryParse ctx
          (.object [(f, .object [("boost", .f64 (n : ℚ)), ("query", .string s)])])) ∧
    (∀ (ctx : QueryParseContext) (f s : String) (n : Nat),
      matchQueryParse ctx (.object [(f, .object [("boost", .u64 n), ("query", .string s)])]) =
        matchQueryParse ctx
          (.object [(f, .object [("boost", .f64 (n : ℚ)), ("query", .string s)])])) ∧
    (∀ (ctx : QueryParseContext) (f s : String) (v : Json), v.isNumeric = false →
      matchQueryParse ctx (.object [(f, .object [("boost", v), ("query", .string s)])]) =
        .error .expectedFloat) ∧
    (∀ (ctx : QueryParseContext) (f s : String),
      matchQueryParse ctx (.object [(f, .object [("query", .string s)])]) =
        .ok (.bool [] []
          ((splitWhitespace s).enum.map (fun p => Query.matchTerm f (.str p.2) .exact 1))
          [] 1 1)) := by
  refine ⟨?_, ?_, ?_, ?_⟩
  · intro ctx f s n; rfl
  · intro ctx f s n; rfl
  · intro ctx f s v h
    cases v <;> first | rfl | simp_all [Json.isNumeric]
  · intro ctx f s
    have hcfg : matchGetConfig (.object [("query", .string s)]) = .ok ⟨.string s, 1, .or⟩ := rfl
    have htoks : matchResolveTokens ctx f (.string s) =
        some ((splitWhitespace s).enum.map (fun p => (⟨.str p.2, p.1⟩ : Token))) := by
      unfold matchResolveTokens
      cases ctx.index.getFieldMappingByName f <;> rfl
    simp only [matchQueryParse_single, hcfg, htoks]
    simp [List.map_map]

/-- Witness for C3: boost `2` as integer and as float, a string boost, and
an absent boost, on the query string `"bar"`. -/
theorem matchQueryParse_boost_semantics_witness :
    matchQueryParse ctx0
        (.object [("foo", .object [("boost", .i64 2), ("query", .string "bar")])]) =
      matchQueryParse ctx0
        (.object [("foo", .object [("boost", .f64 ((2 : Int) : ℚ)), ("query", .string "bar")])]) ∧
    matchQueryParse ctx0
        (.object [("foo", .object [("boost", .string "2"), ("query", .string "bar")])]) =
      .error .expectedFloat ∧
    matchQueryParse ctx0 (.object [("foo", .object [("query", .string "bar")])]) =
      .ok (.bool [] [] [.matchTerm "foo" (.str "bar") .exact 1] [] 1 1) :=
  ⟨matchQueryParse_boost_semantics.1 ctx0 "foo" "bar" 2,
   matchQueryParse_boost_semantics.2.2.1 ctx0 "foo" "bar" (.string "2") rfl,
   matchQueryParse_boost_semantics.2.2.2 ctx0 "foo" "bar"⟩

/-- C4: the match parser degrades instead of failing: an unregistered field
name falls back to the analysis of the default mapping, the parse still returns
`Ok` whenever the configuration parses, and an untokenizable query value
yields `Ok(MatchNone)`, not an error. -/
theorem matchQueryParse_resolution_fallbacks :
    (∀ (ctx : QueryParseContext) (f : String) (q : Json),
      ctx.index.getFieldMappingByName f = none →
      matchResolveTokens ctx f q = FieldMapping.defaultMapping.processValueForQuery q) ∧
    (∀ (ctx : QueryParseContext) (f : String) (v : Json) (cfg : MatchConfig),
      matchGetConfig v = .ok cfg →
      ∃ q, matchQueryParse ctx (.object [(f, v)]) = .ok q) ∧
    (∀ (ctx : QueryParseContext) (f : String) (v : Json) (cfg : MatchConfig),
      matchGetConfig v = .ok cfg →
      matchResolveTokens ctx f cfg.query = none →
      matchQueryParse ctx (.object [(f, v)]) = .ok .matchNone) := by
  refine ⟨?_, ?_, ?_⟩
  · intro ctx f q h
    unfold matchResolveTokens
    rw [h]
  · intro ctx f v cfg hcfg
    cases hres : matchResolveTokens ctx f cfg.query with
    | none => exact ⟨.matchNone, by simp only [matchQueryParse_single, hcfg, hres]⟩
    | some tokens =>
      cases hco : cfg.op with
      | or =>
        exact ⟨.bool [] [] (tokens.map (fun t => Query.matchTerm f t.term .exact 1)) []
            1 cfg.boost,
          by simp only [matchQueryParse_single, hcfg, hres, hco]⟩
      | and =>
        exact ⟨.bool (tokens.map (fun t => Query.matchTerm f t.term .exact 1)) [] [] []
            0 cfg.boost,
          by simp only [matchQueryParse_single, hcfg, hres, hco]⟩
  · intro ctx f v cfg hcfg hres
    simp only [matchQueryParse_single, hcfg, hres]

/-- Witness for C4: the unmapped field `foo` with the untokenizable query
value `\x7b\x7d` (an empty object). -/
theorem matchQueryParse_resolution_fallbacks_witness :
    matchResolveTokens ctx0 "foo" (.object []) =
      FieldMapping.defaultMapping.processValueForQuery (.object []) ∧
    (∃ q, matchQueryParse ctx0 (.object [("foo", .object [("query", .object [])])]) = .ok q) ∧
    matchQueryParse ctx0 (.object [("foo", .object [("query", .object [])])]) =
      .ok .matchNone :=
  ⟨matchQueryParse_resolution_fallbacks.1 ctx0 "foo" (.object []) rfl,
   matchQueryParse_resolution_fallbacks.2.1 ctx0 "foo" (.object [("query", .object [])])
     ⟨.object [], 1, .or⟩ rfl,
   matchQueryParse_resolution_fallbacks.2.2 ctx0 "foo" (.object [("query", .object [])])
     ⟨.object [], 1, .or⟩ rfl rfl⟩

/-! ## Claim theorems: or query parser -/

/-- Unfolds `orParseList` on a cons by one level. -/
theorem orParseList_cons (ctx : QueryParseContext) (x : Json) (xs : List Json) :
    orParseList ctx (x :: xs) =
      match parseQuery ctx x with
      | .error e => .error e
      | .ok q =>
        match orParseList ctx xs with
        | .error e => .error e
        | .ok qs => .ok (q :: qs) :=
  rfl

/-- Unfolds `orQueryParse` on an array by one level. -/
theorem orQueryParse_array (ctx : QueryParseContext) (xs : List Json) :
    orQueryParse ctx (.array xs) =
      match orParseList ctx xs with
      | .ok subQueries => .ok (.bool [] [] subQueries [] 1 1)
      | .error e => .error e :=
  rfl

/-- The or parser rejects every non-array with `ExpectedArray`. -/
theorem orQueryParse_not_array (ctx : QueryParseContext) (j : Json)
    (h : j.isArray = false) : orQueryParse ctx j = .error .expectedArray := by
  cases j <;> first | rfl | simp_all [Json.isArray]

/-- A JSON value with `isArray` set is an array. -/
theorem Json.isArray_true_iff (j : Json) :
    j.isArray = true ↔ ∃ xs, j = .array xs := by
  cases j <;> simp [Json.isArray]

/-- The element loop of `or_query::parse` is `mapM` of the top-level
dispatcher over the array. -/
theorem orParseList_eq_mapM (ctx : QueryParseContext) :
    ∀ xs : List Json, orParseList ctx xs = xs.mapM (parseQuery ctx) := by
  intro xs
  induction xs with
  | nil => rfl
  | cons x xs ih =>
    rw [List.mapM_cons, ← ih, orParseList_cons]
    cases hx : parseQuery ctx x with
    | error e => rfl
    | ok q =>
      cases hl : orParseList ctx xs with
      | error e => rfl
      | ok qs => rfl

/-- With every element before `x` parsing successfully and `x` failing, the
element loop fails with the error of `x`. -/
theorem orParseList_first_error (ctx : QueryParseContext) (x : Json)
    (post : List Json) (e : QueryParseError) (hx : parseQuery ctx x = .error e) :
    ∀ pre : List Json, (∀ y ∈ pre, ∃ q, parseQuery ctx y = .ok q) →
      orParseList ctx (pre ++ x :: post) = .error e := by
  intro pre
  induction pre with
  | nil =>
    intro _
    rw [List.nil_append, orParseList_cons, hx]
  | cons y pre ih =>
    intro hvalid
    obtain ⟨q, hq⟩ := hvalid y (List.mem_cons_self _ _)
    have ih2 := ih (fun z hz => hvalid z (List.mem_cons_of_mem _ hz))
    rw [List.cons_append, orParseList_cons, hq, ih2]

/-- C5: the or parser rejects non-arrays with `ExpectedArray`; when every
element parses under the top-level dispatcher the children become the
`should` list (in array order) of a `Bool` with `minimum_should_match` 1 and
boost 1.0; and the error of the first failing element is returned unchanged. -/
theorem orQueryParse_dispatch_semantics :
    (∀ (ctx : QueryParseContext) (j : Json), j.isArray = false →
      orQueryParse ctx j = .error .expectedArray) ∧
    (∀ (ctx : QueryParseContext) (xs : List Json) (qs : List Query),
      xs.mapM (parseQuery ctx) = .ok qs →
      orQueryParse ctx (.array xs) = .ok (.bool [] [] qs [] 1 1)) ∧
    (∀ (ctx : QueryParseContext) (pre : List Json) (x : Json) (post : List Json)
      (e : QueryParseError),
      (∀ y ∈ pre, ∃ q, parseQuery ctx y = .ok q) →
      parseQuery ctx x = .error e →
      orQueryParse ctx (.array (pre ++ x :: post)) = .error e) := by
  refine ⟨?_, ?_, ?_⟩
  · intro ctx j h
    exact orQueryParse_not_array ctx j h
  · intro ctx xs qs h
    rw [← orParseList_eq_mapM] at h
    rw [orQueryParse_array, h]
  · intro ctx pre x post e hpre hx
    rw [orQueryParse_array, orParseList_first_error ctx x post e hx pre hpre]

/-- Witness for C5: a non-array, a one-element array holding a match query,
and an array whose second element is malformed. -/
theorem orQueryParse_dispatch_semantics_witness :
    orQueryParse ctx0 (.i64 3) = .error .expectedArray ∧
    orQueryParse ctx0 (.array [.object [("match", .object [("foo", .string "bar")])]]) =
      .ok (.bool [] [] [.bool [] [] [.matchTerm "foo" (.str "bar") .exact 1] [] 1 1] [] 1 1) ∧
    orQueryParse ctx0
        (.array [.object [("match", .object [("foo", .string "bar")])], .i64 5, .null]) =
      .error .expectedObject := by
  refine ⟨?_, ?_, ?_⟩
  · exact orQueryParse_dispatch_semantics.1 ctx0 (.i64 3) rfl
  · exact orQueryParse_dispatch_semantics.2.1 ctx0
      [.object [("match", .object [("foo", .string "bar")])]]
      [.bool [] [] [.matchTerm "foo" (.str "bar") .exact 1] [] 1 1]
      (by rw [← orParseList_eq_mapM]; rfl)
  · exact orQueryParse_dispatch_semantics.2.2 ctx0
      [.object [("match", .object [("foo", .string "bar")])]] (.i64 5) [.null]
      .expectedObject
      (fun y hy => by
        rw [List.mem_singleton] at hy
        subst hy
        exact ⟨.bool [] [] [.matchTerm "foo" (.str "bar") .exact 1] [] 1 1, rfl⟩)
      rfl

/-- C6 counterexample: the or parser on the empty array builds
`Bool\x7bshould: [], minimum_should_match: 1\x7d`, violating the
satisfiability invariant. -/
theorem orQueryParse_empty_msm_counterexample :
    orQueryParse ctx0 (.array []) = .ok (.bool [] [] [] [] 1 1) ∧
    ¬ msmInvariant (.bool [] [] [] [] 1 1) :=
  ⟨rfl, by simp [msmInvariant]⟩

/-- C6 (amended): every `Bool` node built by the match and or parsers has
`minimum_should_match` at most 1; it is 0 only with an empty `should` list,
and with a nonempty `should` list it never exceeds the length of the list.  The
or-combining paths may however produce `should = []` with
`minimum_should_match = 1` (no tokens, or an empty array), so the full
satisfiability invariant fails exactly there. -/
theorem parsed_bool_msm_bounds (ctx : QueryParseContext) (j : Json)
    (m mn s fl : List Query) (msm : Nat) (b : ℚ)
    (h : matchQueryParse ctx j = .ok (.bool m mn s fl msm b) ∨
         orQueryParse ctx j = .ok (.bool m mn s fl msm b)) :
    msm ≤ 1 ∧ (msm = 0 → s = []) ∧ (s ≠ [] → msm ≤ s.length) := by
  rcases h with h | h
  · cases hobj : j.isObject with
    | false =>
      rw [show matchQueryParse ctx j = .error .expectedObject by
        cases j <;> first | rfl | simp_all [Json.isObject]] at h
      simp at h
    | true =>
      obtain ⟨kvs, rfl⟩ : ∃ kvs, j = .object kvs := by
        cases j <;> simp_all [Json.isObject]
      cases kvs with
      | nil => simp [matchQueryParse] at h
      | cons a tl =>
        obtain ⟨f, v⟩ := a
        cases tl with
        | cons a2 tl2 => simp [matchQueryParse] at h
        | nil =>
          rw [matchQueryParse_single] at h
          cases hcfg : matchGetConfig v with
          | error e => rw [hcfg] at h; simp at h
          | ok cfg =>
            simp only [hcfg] at h
            cases hres : matchResolveTokens ctx f cfg.query with
            | none => rw [hres] at h; simp at h
            | some tokens =>
              rw [hres] at h
              cases hco : cfg.op <;> rw [hco] at h <;>
                simp only [Except.ok.injEq, Query.bool.injEq] at h
              · obtain ⟨-, -, hs, -, hmsm, -⟩ := h
                subst hs
                subst hmsm
                refine ⟨le_refl 1, by simp, fun hne => ?_⟩
                exact List.length_pos.mpr hne
              · obtain ⟨-, -, hs, -, hmsm, -⟩ := h
                subst hs
                subst hmsm
                exact ⟨Nat.zero_le 1, fun _ => rfl, fun _ => Nat.zero_le _⟩
  · cases harr : j.isArray with
    | false =>
      rw [orQueryParse_not_array ctx j harr] at h
      simp at h
    | true =>
      obtain ⟨xs, rfl⟩ := (Json.isArray_true_iff j).mp harr
      cases hl : orParseList ctx xs with
      | error e => rw [orQueryParse_array, hl] at h; simp at h
      | ok qs =>
        rw [orQueryParse_array, hl] at h
        simp only [Except.ok.injEq, Query.bool.injEq] at h
        obtain ⟨-, -, hs, -, hmsm, -⟩ := h
        subst hs
        subst hmsm
        refine ⟨le_refl 1, by simp, fun hne => ?_⟩
        exact List.length_pos.mpr hne

/-- Witness for C6 (amended): the single-token match query
`\x7b"foo": "bar"\x7d`. -/
theorem parsed_bool_msm_bounds_witness :
    (1 : Nat) ≤ 1 ∧
    ((1 : Nat) = 0 → ([.matchTerm "foo" (.str "bar") .exact 1] : List Query) = []) ∧
    (([.matchTerm "foo" (.str "bar") .exact 1] : List Query) ≠ [] →
      (1 : Nat) ≤ ([.matchTerm "foo" (.str "bar") .exact 1] : List Query).length) :=
  parsed_bool_msm_bounds ctx0 (.object [("foo", .string "bar")])
    [] [] [.matchTerm "foo" (.str "bar") .exact 1] [] 1 1 (.inl rfl)

/-! ## Helper lemmas: bulk handler step equations -/

/-- The bulk loop finishes at the end of the payload. -/
theorem bulkSteps_nil (fromStr : String → Option Json) (st : Registry)
    (items : List (String × Json)) : bulkSteps fromStr st items [] = .finished st items :=
  rfl

/-- The bulk loop breaks at an empty action line. -/
theorem bulkSteps_empty (fromStr : String → Option Json) (st : Registry)
    (items : List (String × Json)) (rest : List String) :
    bulkSteps fromStr st items ("" :: rest) = .finished st items := by
  rw [bulkSteps.eq_2, if_pos rfl]

/-- A malformed action line aborts the request. -/
theorem bulkSteps_json_error (fromStr : String → Option Json) (st : Registry)
    (items : List (String × Json)) (line : String) (rest : List String)
    (h0 : line ≠ "") (h1 : fromStr line = none) :
    bulkSteps fromStr st items (line :: rest) = .aborted .jsonError st := by
  rw [bulkSteps.eq_2, if_neg h0, h1]

/-- An action line that is not a nonempty object of an object panics. -/
theorem bulkSteps_panicked_parts (fromStr : String → Option Json) (st : Registry)
    (items : List (String × Json)) (line : String) (rest : List String) (aj : Json)
    (h0 : line ≠ "") (h1 : fromStr line = some aj) (h2 : getActionParts aj = none) :
    bulkSteps fromStr st items (line :: rest) = .aborted .panicked st := by
  rw [bulkSteps.eq_2, if_neg h0]
  simp only [h1, h2]

/-- Missing or non-string `_id`/`_type`/`_index` parameters panic. -/
theorem bulkSteps_panicked_fields (fromStr : String → Option Json) (st : Registry)
    (items : List (String × Json)) (line : String) (rest : List String) (aj : Json)
    (name : String) (params : List (String × Json))
    (h0 : line ≠ "") (h1 : fromStr line = some aj)
    (h2 : getActionParts aj = some (name, params)) (h3 : getDocFields params = none) :
    bulkSteps fromStr st items (line :: rest) = .aborted .panicked st := by
  rw [bulkSteps.eq_2, if_neg h0]
  simp only [h1, h2, h3]

/-- An `index` action at the end of the payload panics on the missing
document line. -/
theorem bulkSteps_index_nodoc (fromStr : String → Option Json) (st : Registry)
    (items : List (String × Json)) (line : String) (aj : Json)
    (params : List (String × Json)) (docId docType docIndex : String)
    (h0 : line ≠ "") (h1 : fromStr line = some aj)
    (h2 : getActionParts aj = some ("index", params))
    (h3 : getDocFields params = some (docId, docType, docIndex)) :
    bulkSteps fromStr st items [line] = .aborted .panicked st := by
  rw [bulkSteps.eq_2, if_neg h0]
  simp only [h1, h2, h3, reduceIte]

/-- A malformed document line aborts the request. -/
theorem bulkSteps_doc_json_error (fromStr : String → Option Json) (st : Registry)
    (items : List (String × Json)) (line docLine : String) (rest : List String)
    (aj : Json) (params : List (String × Json)) (docId docType docIndex : String)
    (h0 : line ≠ "") (h1 : fromStr line = some aj)
    (h2 : getActionParts aj = some ("index", params))
    (h3 : getDocFields params = some (docId, docType, docIndex))
    (h4 : fromStr docLine = none) :
    bulkSteps fromStr st items (line :: docLine :: rest) = .aborted .jsonError st := by
  rw [bulkSteps.eq_2, if_neg h0]
  simp only [h1, h2, h3, reduceIte, h4]

/-- An `index` action naming an unregistered index returns the not-found
response with the registry as already mutated. -/
theorem bulkSteps_index_notfound (fromStr : String → Option Json) (st : Registry)
    (items : List (String × Json)) (line docLine : String) (rest : List String)
    (aj docJson : Json) (params : List (String × Json)) (docId docType docIndex : String)
    (h0 : line ≠ "") (h1 : fromStr line = some aj)
    (h2 : getActionParts aj = some ("index", params))
    (h3 : getDocFields params = some (docId, docType, docIndex))
    (h4 : fromStr docLine = some docJson) (h5 : registryFind st docIndex = none) :
    bulkSteps fromStr st items (line :: docLine :: rest) = .aborted .indexNotFound st := by
  rw [bulkSteps.eq_2, if_neg h0]
  simp only [h1, h2, h3, reduceIte, h4, h5]

/-- An `index` action naming an unregistered mapping returns the not-found
response with the registry as already mutated. -/
theorem bulkSteps_mapping_notfound (fromStr : String → Option Json) (st : Registry)
    (items : List (String × Json)) (line docLine : String) (rest : List String)
    (aj docJson : Json) (params : List (String × Json)) (docId docType docIndex : String)
    (idx : SIndex)
    (h0 : line ≠ "") (h1 : fromStr line = some aj)
    (h2 : getActionParts aj = some ("index", params))
    (h3 : getDocFields params = some (docId, docType, docIndex))
    (h4 : fromStr docLine = some docJson) (h5 : registryFind st docIndex = some idx)
    (h6 : docType ∉ idx.mappings) :
    bulkSteps fromStr st items (line :: docLine :: rest) = .aborted .mappingNotFound st := by
  rw [bulkSteps.eq_2, if_neg h0]
  simp only [h1, h2, h3, reduceIte, h4, h5, if_neg h6]

/-- A successful `index` action inserts the document into the registry and
appends the item `("create", params)` before the loop continues. -/
theorem bulkSteps_index_ok (fromStr : String → Option Json) (st : Registry)
    (items : List (String × Json)) (line docLine : String) (rest : List String)
    (aj docJson : Json) (params : List (String × Json)) (docId docType docIndex : String)
    (idx : SIndex)
    (h0 : line ≠ "") (h1 : fromStr line = some aj)
    (h2 : getActionParts aj = some ("index", params))
    (h3 : getDocFields params = some (docId, docType, docIndex))
    (h4 : fromStr docLine = some docJson) (h5 : registryFind st docIndex = some idx)
    (h6 : docType ∈ idx.mappings) :
    bulkSteps fromStr st items (line :: docLine :: rest) =
      bulkSteps fromStr (registryInsertDoc st docIndex docId docJson)
        (items ++ [("create", Json.object params)]) rest := by
  rw [bulkSteps.eq_2, if_neg h0]
  simp only [h1, h2, h3, reduceIte, h4, h5, if_pos h6]

/-- An action with an unrecognised name is skipped: no state change, no item,
no document line consumed. -/
theorem bulkSteps_unknown_action (fromStr : String → Option Json) (st : Registry)
    (items : List (String × Json)) (line : String) (rest : List String)
    (aj : Json) (name : String) (params : List (String × Json))
    (docId docType docIndex : String)
    (h0 : line ≠ "") (h1 : fromStr line = some aj)
    (h2 : getActionParts aj = some (name, params))
    (h3 : getDocFields params = some (docId, docType, docIndex))
    (hname : name ≠ "index") :
    bulkSteps fromStr st items (line :: rest) = bulkSteps fromStr st items rest := by
  rw [bulkSteps.eq_2, if_neg h0]
  simp only [h1, h2, h3, if_neg hname]

/-- Lifts a finished loop to the response of the handler. -/
theorem viewPostBulk_finished (fromStr : String → Option Json) (st : Registry)
    (lines : List String) (st2 : Registry) (items : List (String × Json))
    (h : bulkSteps fromStr st [] lines = .finished st2 items) :
    viewPostBulk fromStr st lines = (.ok items.length items, st2) := by
  simp only [viewPostBulk, h]

/-- Lifts an index-not-found abort to the response of the handler. -/
theorem viewPostBulk_index_notfound (fromStr : String → Option Json) (st : Registry)
    (lines : List String) (st2 : Registry)
    (h : bulkSteps fromStr st [] lines = .aborted .indexNotFound st2) :
    viewPostBulk fromStr st lines = (.indexNotFound, st2) := by
  simp only [viewPostBulk, h]

/-- Lifts a mapping-not-found abort to the response of the handler. -/
theorem viewPostBulk_mapping_notfound (fromStr : String → Option Json) (st : Registry)
    (lines : List String) (st2 : Registry)
    (h : bulkSteps fromStr st [] lines = .aborted .mappingNotFound st2) :
    viewPostBulk fromStr st lines = (.mappingNotFound, st2) := by
  simp only [viewPostBulk, h]

/-- Every item the bulk loop ever emits is keyed by the literal `"create"`:
if the loop finishes and the accumulated items so far are all keyed
`"create"`, so are the final items. -/
theorem bulkSteps_items_create (fromStr : String → Option Json)
    (st : Registry) (items : List (String × Json)) (lines : List String) :
    ∀ (st2 : Registry) (items2 : List (String × Json)),
      bulkSteps fromStr st items lines = .finished st2 items2 →
      (∀ e ∈ items, e.1 = "create") → ∀ e ∈ items2, e.1 = "create" := by
  induction st, items, lines using bulkSteps.induct fromStr
  next st items =>
    intro st2 items2 hrun hinv
    rw [bulkSteps_nil] at hrun
    injection hrun with h1 h2
    subst h1
    subst h2
    exact hinv
  next st items rest =>
    intro st2 items2 hrun hinv
    rw [bulkSteps_empty] at hrun
    injection hrun with h1 h2
    subst h1
    subst h2
    exact hinv
  next st items line rest h0 h1 =>
    intro st2 items2 hrun hinv
    rw [bulkSteps_json_error fromStr st items line rest h0 h1] at hrun
    simp at hrun
  next st items line rest h0 aj h1 h2 =>
    intro st2 items2 hrun hinv
    rw [bulkSteps_panicked_parts fromStr st items line rest aj h0 h1 h2] at hrun
    simp at hrun
  next st items line rest h0 aj h1 name params h2 h3 =>
    intro st2 items2 hrun hinv
    rw [bulkSteps_panicked_fields fromStr st items line rest aj name params h0 h1 h2 h3] at hrun
    simp at hrun
  next st items line h0 aj h1 params docId docType docIndex h3 h2 =>
    intro st2 items2 hrun hinv
    rw [bulkSteps_index_nodoc fromStr st items line aj params docId docType docIndex
      h0 h1 h2 h3] at hrun
    simp at hrun
  next st items line h0 aj h1 params docId docType docIndex h3 docLine rest2 h4 h2 =>
    intro st2 items2 hrun hinv
    rw [bulkSteps_doc_json_error fromStr st items line docLine rest2 aj params
      docId docType docIndex h0 h1 h2 h3 h4] at hrun
    simp at hrun
  next st items line h0 aj h1 params docId docType docIndex h3 docLine rest2 dj h4 h5 h2 =>
    intro st2 items2 hrun hinv
    rw [bulkSteps_index_notfound fromStr st items line docLine rest2 aj dj params
      docId docType docIndex h0 h1 h2 h3 h4 h5] at hrun
    simp at hrun
  next st items line h0 aj h1 params docId docType docIndex h3 docLine rest2 dj h4 idx h5 h6 h2 ih =>
    intro st2 items2 hrun hinv
    rw [bulkSteps_index_ok fromStr st items line docLine rest2 aj dj params
      docId docType docIndex idx h0 h1 h2 h3 h4 h5 h6] at hrun
    refine ih st2 items2 hrun ?_
    intro e he
    rcases List.mem_append.mp he with he | he
    · exact hinv e he
    · rw [List.mem_singleton] at he
      subst he
      rfl
  next st items line h0 aj h1 params docId docType docIndex h3 docLine rest2 dj h4 idx h5 h6 h2 =>
    intro st2 items2 hrun hinv
    rw [bulkSteps_mapping_notfound fromStr st items line docLine rest2 aj dj params
      docId docType docIndex idx h0 h1 h2 h3 h4 h5 h6] at hrun
    simp at hrun
  next st items line rest h0 aj h1 name params h2 docId docType docIndex h3 hname ih =>
    intro st2 items2 hrun hinv
    rw [bulkSteps_unknown_action fromStr st items line rest aj name params
      docId docType docIndex h0 h1 h2 h3 hname] at hrun
    exact ih st2 items2 hrun hinv

/-- When the empty string is malformed JSON (as it is for `Json::from_str`),
everything after the first empty line of the payload is irrelevant: the loop
behaves as if the payload ended at that empty line. -/
theorem bulkSteps_ignores_after_empty (fromStr : String → Option Json)
    (hE : fromStr "" = none) (tail : List String) :
    ∀ (n : Nat) (pre : List String), pre.length ≤ n → "" ∉ pre →
      ∀ (st : Registry) (items : List (String × Json)),
        bulkSteps fromStr st items (pre ++ "" :: tail) =
          bulkSteps fromStr st items (pre ++ [""]) := by
  intro n
  induction n with
  | zero =>
    intro pre hlen hmem st items
    have hnil : pre = [] := List.eq_nil_of_length_eq_zero (Nat.le_zero.mp hlen)
    subst hnil
    rw [List.nil_append, List.nil_append, bulkSteps_empty, bulkSteps_empty]
  | succ n ih =>
    intro pre hlen hmem st items
    cases pre with
    | nil => rw [List.nil_append, List.nil_append, bulkSteps_empty, bulkSteps_empty]
    | cons line pre2 =>
      have hline : line ≠ "" := by
        intro hc
        exact hmem (by rw [hc]; exact List.mem_cons_self _ _)
      have hmem2 : "" ∉ pre2 := fun hc => hmem (List.mem_cons_of_mem _ hc)
      rw [List.cons_append, List.cons_append]
      cases hfs : fromStr line with
      | none =>
        rw [bulkSteps_json_error fromStr st items line (pre2 ++ "" :: tail) hline hfs,
          bulkSteps_json_error fromStr st items line (pre2 ++ [""]) hline hfs]
      | some aj =>
        cases hparts : getActionParts aj with
        | none =>
          rw [bulkSteps_panicked_parts fromStr st items line (pre2 ++ "" :: tail) aj
              hline hfs hparts,
            bulkSteps_panicked_parts fromStr st items line (pre2 ++ [""]) aj
              hline hfs hparts]
        | some pr =>
          obtain ⟨name, params⟩ := pr
          cases hfields : getDocFields params with
          | none =>
            rw [bulkSteps_panicked_fields fromStr st items line (pre2 ++ "" :: tail) aj
                name params hline hfs hparts hfields,
              bulkSteps_panicked_fields fromStr st items line (pre2 ++ [""]) aj
                name params hline hfs hparts hfields]
          | some trip =>
            obtain ⟨docId, docType, docIndex⟩ := trip
            by_cases hname : name = "index"
            · subst hname
              cases pre2 with
              | nil =>
                rw [List.nil_append, List.nil_append]
                rw [bulkSteps_doc_json_error fromStr st items line "" tail aj params
                    docId docType docIndex hline hfs hparts hfields hE,
                  bulkSteps_doc_json_error fromStr st items line "" [] aj params
                    docId docType docIndex hline hfs hparts hfields hE]
              | cons docLine pre3 =>
                have hmem3 : "" ∉ pre3 := fun hc => hmem2 (List.mem_cons_of_mem _ hc)
                rw [List.cons_append, List.cons_append]
                cases hdj : fromStr docLine with
                | none =>
                  rw [bulkSteps_doc_json_error fromStr st items line docLine
                      (pre3 ++ "" :: tail) aj params docId docType docIndex
                      hline hfs hparts hfields hdj,
                    bulkSteps_doc_json_error fromStr st items line docLine
                      (pre3 ++ [""]) aj params docId docType docIndex
                      hline hfs hparts hfields hdj]
                | some dj =>
                  cases hreg : registryFind st docIndex with
                  | none =>
                    rw [bulkSteps_index_notfound fromStr st items line docLine
                        (pre3 ++ "" :: tail) aj dj params docId docType docIndex
                        hline hfs hparts hfields hdj hreg,
                      bulkSteps_index_notfound fromStr st items line docLine
                        (pre3 ++ [""]) aj dj params docId docType docIndex
                        hline hfs hparts hfields hdj hreg]
                  | some idx =>
                    by_cases hmm : docType ∈ idx.mappings
                    · rw [bulkSteps_index_ok fromStr st items line docLine
                          (pre3 ++ "" :: tail) aj dj params docId docType docIndex idx
                          hline hfs hparts hfields hdj hreg hmm,
                        bulkSteps_index_ok fromStr st items line docLine
                          (pre3 ++ [""]) aj dj params docId docType docIndex idx
                          hline hfs hparts hfields hdj hreg hmm]
                      refine ih pre3 ?_ hmem3 _ _
                      simp only [List.length_cons] at hlen
                      omega
                    · rw [bulkSteps_mapping_notfound fromStr st items line docLine
                          (pre3 ++ "" :: tail) aj dj params docId docType docIndex idx
                          hline hfs hparts hfields hdj hreg hmm,
                        bulkSteps_mapping_notfound fromStr st items line docLine
                          (pre3 ++ [""]) aj dj params docId docType docIndex idx
                          hline hfs hparts hfields hdj hreg hmm]
            · rw [bulkSteps_unknown_action fromStr st items line (pre2 ++ "" :: tail) aj
                  name params docId docType docIndex hline hfs hparts hfields hname,
                bulkSteps_unknown_action fromStr st items line (pre2 ++ [""]) aj
                  name params docId docType docIndex hline hfs hparts hfields hname]
              refine ih pre2 ?_ hmem2 st items
              simp only [List.length_cons] at hlen
              omega

/-! ## Claim theorems: bulk handler -/

/-- A registry holding one index `idx` with no mappings. -/
def regNoMap : Registry := [("idx", ⟨[], []⟩)]

/-- C7 counterexample: a batch whose first action indexes document `1` into
the existing `idx` and whose second action references the nonexistent index
`missing`.  The response is the not-found error, yet document `1` from the
same batch is committed in the final registry. -/
theorem bulk_partial_commit_counterexample :
    viewPostBulk testFromStr reg0 [actionLine1, docLine1, actionLine2, docLine2] =
      (.indexNotFound, [("idx", ⟨["typ"], [("1", docJson1)]⟩)]) ∧
    registryFind [("idx", ⟨["typ"], [("1", docJson1)]⟩)] "idx" =
      some ⟨["typ"], [("1", docJson1)]⟩ ∧
    assocFind "1" (SIndex.docs ⟨["typ"], [("1", docJson1)]⟩) = some docJson1 :=
  ⟨rfl, rfl, rfl⟩

/-- C7 (amended): a not-found failure aborts the batch — the remaining lines
are never processed and the structured not-found response is returned — but
there is no rollback: the error responses carry the registry as already
mutated, and each successful `index` action commits its document to the
registry before the loop continues, so documents of earlier actions stay
committed. -/
theorem bulk_notfound_aborts_without_rollback :
    (∀ (fromStr : String → Option Json) (st : Registry) (items : List (String × Json))
      (line docLine : String) (rest : List String) (aj docJson : Json)
      (params : List (String × Json)) (docId docType docIndex : String),
      line ≠ "" → fromStr line = some aj → getActionParts aj = some ("index", params) →
      getDocFields params = some (docId, docType, docIndex) →
      fromStr docLine = some docJson → registryFind st docIndex = none →
      bulkSteps fromStr st items (line :: docLine :: rest) = .aborted .indexNotFound st) ∧
    (∀ (fromStr : String → Option Json) (st : Registry) (items : List (String × Json))
      (line docLine : String) (rest : List String) (aj docJson : Json)
      (params : List (String × Json)) (docId docType docIndex : String) (idx : SIndex),
      line ≠ "" → fromStr line = some aj → getActionParts aj = some ("index", params) →
      getDocFields params = some (docId, docType, docIndex) →
      fromStr docLine = some docJson → registryFind st docIndex = some idx →
      docType ∉ idx.mappings →
      bulkSteps fromStr st items (line :: docLine :: rest) = .aborted .mappingNotFound st) ∧
    (∀ (fromStr : String → Option Json) (st : Registry) (items : List (String × Json))
      (line docLine : String) (rest : List String) (aj docJson : Json)
      (params : List (String × Json)) (docId docType docIndex : String) (idx : SIndex),
      line ≠ "" → fromStr line = some aj → getActionParts aj = some ("index", params) →
      getDocFields params = some (docId, docType, docIndex) →
      fromStr docLine = some docJson → registryFind st docIndex = some idx →
      docType ∈ idx.mappings →
      bulkSteps fromStr st items (line :: docLine :: rest) =
        bulkSteps fromStr (registryInsertDoc st docIndex docId docJson)
          (items ++ [("create", Json.object params)]) rest) ∧
    (∀ (fromStr : String → Option Json) (st : Registry) (lines : List String)
      (st2 : Registry),
      bulkSteps fromStr st [] lines = .aborted .indexNotFound st2 →
      viewPostBulk fromStr st lines = (.indexNotFound, st2)) ∧
    (∀ (fromStr : String → Option Json) (st : Registry) (lines : List String)
      (st2 : Registry),
      bulkSteps fromStr st [] lines = .aborted .mappingNotFound st2 →
      viewPostBulk fromStr st lines = (.mappingNotFound, st2)) := by
  refine ⟨?_, ?_, ?_, ?_, ?_⟩
  · intro fromStr st items line docLine rest aj docJson params docId docType docIndex
      h0 h1 h2 h3 h4 h5
    exact bulkSteps_index_notfound fromStr st items line docLine rest aj docJson params
      docId docType docIndex h0 h1 h2 h3 h4 h5
  · intro fromStr st items line docLine rest aj docJson params docId docType docIndex idx
      h0 h1 h2 h3 h4 h5 h6
    exact bulkSteps_mapping_notfound fromStr st items line docLine rest aj docJson params
      docId docType docIndex idx h0 h1 h2 h3 h4 h5 h6
  · intro fromStr st items line docLine rest aj docJson params docId docType docIndex idx
      h0 h1 h2 h3 h4 h5 h6
    exact bulkSteps_index_ok fromStr st items line docLine rest aj docJson params
      docId docType docIndex idx h0 h1 h2 h3 h4 h5 h6
  · intro fromStr st lines st2 h
    exact viewPostBulk_index_notfound fromStr st lines st2 h
  · intro fromStr st lines st2 h
    exact viewPostBulk_mapping_notfound fromStr st lines st2 h

/-- Witness for C7 (amended): the concrete two-action batch of the
counterexample, plus a mapping-not-found batch against `regNoMap`. -/
theorem bulk_notfound_aborts_without_rollback_witness :
    bulkSteps testFromStr [("idx", ⟨["typ"], [("1", docJson1)]⟩)]
        [("create", .object params1)] [actionLine2, docLine2] =
      .aborted .indexNotFound [("idx", ⟨["typ"], [("1", docJson1)]⟩)] ∧
    bulkSteps testFromStr regNoMap [] [actionLine1, docLine1] =
      .aborted .mappingNotFound regNoMap ∧
    bulkSteps testFromStr reg0 [] [actionLine1, docLine1] =
      bulkSteps testFromStr (registryInsertDoc reg0 "idx" "1" docJson1)
        [("create", .object params1)] [] ∧
    viewPostBulk testFromStr [("idx", ⟨["typ"], [("1", docJson1)]⟩)]
        [actionLine2, docLine2] =
      (.indexNotFound, [("idx", ⟨["typ"], [("1", docJson1)]⟩)]) ∧
    viewPostBulk testFromStr regNoMap [actionLine1, docLine1] =
      (.mappingNotFound, regNoMap) := by
  refine ⟨?_, ?_, ?_, ?_, ?_⟩
  · exact bulk_notfound_aborts_without_rollback.1 testFromStr
      [("idx", ⟨["typ"], [("1", docJson1)]⟩)] [("create", .object params1)]
      actionLine2 docLine2 [] actionJson2 docJson2 params2 "2" "typ" "missing"
      (by decide) rfl rfl rfl rfl rfl
  · exact bulk_notfound_aborts_without_rollback.2.1 testFromStr regNoMap []
      actionLine1 docLine1 [] actionJson1 docJson1 params1 "1" "typ" "idx" ⟨[], []⟩
      (by decide) rfl rfl rfl rfl rfl (by simp)
  · exact bulk_notfound_aborts_without_rollback.2.2.1 testFromStr reg0 []
      actionLine1 docLine1 [] actionJson1 docJson1 params1 "1" "typ" "idx" ⟨["typ"], []⟩
      (by decide) rfl rfl rfl rfl rfl (by simp)
  · exact bulk_notfound_aborts_without_rollback.2.2.2.1 testFromStr
      [("idx", ⟨["typ"], [("1", docJson1)]⟩)] [actionLine2, docLine2]
      [("idx", ⟨["typ"], [("1", docJson1)]⟩)] rfl
  · exact bulk_notfound_aborts_without_rollback.2.2.2.2 testFromStr regNoMap
      [actionLine1, docLine1] regNoMap rfl

/-- C8 counterexample: the only processed action of the batch is named `index`,
yet its response item is keyed by the literal `"create"`, not by the action
name. -/
theorem bulk_item_key_counterexample :
    getActionParts actionJson1 = some ("index", params1) ∧
    viewPostBulk testFromStr reg0 [actionLine1, docLine1, ""] =
      (.ok 1 [("create", .object params1)],
       [("idx", ⟨["typ"], [("1", docJson1)]⟩)]) ∧
    "create" ≠ "index" :=
  ⟨rfl, rfl, by decide⟩

/-- C8 (amended): a batch processed without a not-found failure responds
with `took` equal to the number of items; every item is keyed by the literal
`"create"` (not by the action name) and carries the echoed action
parameters; actions with unrecognised names contribute no item and are
skipped. -/
theorem bulk_response_shape :
    (∀ (fromStr : String → Option Json) (st : Registry) (lines : List String)
      (st2 : Registry) (items : List (String × Json)),
      bulkSteps fromStr st [] lines = .finished st2 items →
      viewPostBulk fromStr st lines = (.ok items.length items, st2)) ∧
    (∀ (fromStr : String → Option Json) (st : Registry)
      (items : List (String × Json)) (lines : List String)
      (st2 : Registry) (items2 : List (String × Json)),
      bulkSteps fromStr st items lines = .finished st2 items2 →
      (∀ e ∈ items, e.1 = "create") → ∀ e ∈ items2, e.1 = "create") ∧
    (∀ (fromStr : String → Option Json) (st : Registry) (items : List (String × Json))
      (line docLine : String) (rest : List String) (aj docJson : Json)
      (params : List (String × Json)) (docId docType docIndex : String) (idx : SIndex),
      line ≠ "" → fromStr line = some aj → getActionParts aj = some ("index", params) →
      getDocFields params = some (docId, docType, docIndex) →
      fromStr docLine = some docJson → registryFind st docIndex = some idx →
      docType ∈ idx.mappings →
      bulkSteps fromStr st items (line :: docLine :: rest) =
        bulkSteps fromStr (registryInsertDoc st docIndex docId docJson)
          (items ++ [("create", Json.object params)]) rest) ∧
    (∀ (fromStr : String → Option Json) (st : Registry) (items : List (String × Json))
      (line : String) (rest : List String) (aj : Json) (name : String)
      (params : List (String × Json)) (docId docType docIndex : String),
      line ≠ "" → fromStr line = some aj → getActionParts aj = some (name, params) →
      getDocFields params = some (docId, docType, docIndex) → name ≠ "index" →
      bulkSteps fromStr st items (line :: rest) = bulkSteps fromStr st items rest) := by
  refine ⟨?_, ?_, ?_, ?_⟩
  · intro fromStr st lines st2 items h
    exact viewPostBulk_finished fromStr st lines st2 items h
  · intro fromStr st items lines st2 items2 h hinv
    exact bulkSteps_items_create fromStr st items lines st2 items2 h hinv
  · intro fromStr st items line docLine rest aj docJson params docId docType docIndex idx
      h0 h1 h2 h3 h4 h5 h6
    exact bulkSteps_index_ok fromStr st items line docLine rest aj docJson params
      docId docType docIndex idx h0 h1 h2 h3 h4 h5 h6
  · intro fromStr st items line rest aj name params docId docType docIndex
      h0 h1 h2 h3 hname
    exact bulkSteps_unknown_action fromStr st items line rest aj name params
      docId docType docIndex h0 h1 h2 h3 hname

/-- Witness for C8 (amended): the one-action batch, the item-key invariant
on its result, the insert step, and a skipped `frobnicate` action. -/
theorem bulk_response_shape_witness :
    viewPostBulk testFromStr reg0 [actionLine1, docLine1, ""] =
      (.ok 1 [("create", .object params1)],
       [("idx", ⟨["typ"], [("1", docJson1)]⟩)]) ∧
    (∀ e ∈ [(("create" : String), Json.object params1)], e.1 = "create") ∧
    bulkSteps testFromStr reg0 [] [actionLine1, docLine1] =
      bulkSteps testFromStr (registryInsertDoc reg0 "idx" "1" docJson1)
        [("create", .object params1)] [] ∧
    bulkSteps testFromStr reg0 [] [actionLineU] = bulkSteps testFromStr reg0 [] [] := by
  refine ⟨?_, ?_, ?_, ?_⟩
  · exact bulk_response_shape.1 testFromStr reg0 [actionLine1, docLine1, ""]
      [("idx", ⟨["typ"], [("1", docJson1)]⟩)] [("create", .object params1)] rfl
  · exact bulk_response_shape.2.1 testFromStr reg0 [] [actionLine1, docLine1, ""]
      [("idx", ⟨["typ"], [("1", docJson1)]⟩)] [("create", .object params1)] rfl
      (by simp)
  · exact bulk_response_shape.2.2.1 testFromStr reg0 [] actionLine1 docLine1 []
      actionJson1 docJson1 params1 "1" "typ" "idx" ⟨["typ"], []⟩
      (by decide) rfl rfl rfl rfl rfl (by simp)
  · exact bulk_response_shape.2.2.2 testFromStr reg0 [] actionLineU [] actionJsonU
      "frobnicate" paramsU "3" "typ" "idx" (by decide) rfl rfl rfl (by decide)

/-- C10: the bulk decoder terminates at the first empty line: all later
lines are irrelevant to the response and the final registry, and a payload
whose first line is empty yields `took` 0 and no items (given that the
empty string is malformed JSON for the line decoder, as it is for
`Json::from_str`). -/
theorem bulk_stops_at_first_empty_line :
    (∀ (fromStr : String → Option Json) (st : Registry) (pre tail : List String),
      fromStr "" = none → "" ∉ pre →
      viewPostBulk fromStr st (pre ++ "" :: tail) = viewPostBulk fromStr st (pre ++ [""])) ∧
    (∀ (fromStr : String → Option Json) (st : Registry) (tail : List String),
      viewPostBulk fromStr st ("" :: tail) = (.ok 0 [], st)) := by
  constructor
  · intro fromStr st pre tail hE hmem
    unfold viewPostBulk
    rw [bulkSteps_ignores_after_empty fromStr hE tail pre.length pre le_rfl hmem st []]
  · intro fromStr st tail
    simp only [viewPostBulk, bulkSteps_empty]
    rfl

/-- Witness for C10: junk after the empty line is ignored, and an initially
empty payload answers `took` 0. -/
theorem bulk_stops_at_first_empty_line_witness :
    viewPostBulk testFromStr reg0 ([actionLine1, docLine1] ++ "" :: ["junk"]) =
      viewPostBulk testFromStr reg0 ([actionLine1, docLine1] ++ [""]) ∧
    viewPostBulk testFromStr reg0 ("" :: ["junk"]) = (.ok 0 [], reg0) :=
  ⟨bulk_stops_at_first_empty_line.1 testFromStr reg0 [actionLine1, docLine1] ["junk"]
      rfl (by decide),
   bulk_stops_at_first_empty_line.2 testFromStr reg0 ["junk"]⟩

end Rusticsearch
